import Mathlib

/-!
Verification of the escpos-usb-server forwarding server and USB adapter.

The Go sources are embedded shallowly:
* `Server` and its lifecycle operations `Start`, `StartAsync`, `Stop` follow
  `server/server.go` (`Server.Start` lines 45-89, `Server.StartAsync` lines
  91-136, `Server.Stop` lines 203-239).  Environment outcomes that the Go code
  obtains from the operating system (whether `net.Listen` succeeds, whether
  `adapter.Open` / `adapter.Close` succeed) are passed as explicit boolean
  parameters.
* `handleConnection` follows the per-connection forwarding loop
  (`server/server.go` lines 164-200).
* `USBAdapter.Close` follows `adapter/usb.go` lines 335-370.
* The write-path interleaving semantics (`WriteSys`, `wstep`) follows
  `USBAdapter.Write` (`adapter/usb.go` lines 291-311): the whole write call
  runs under the adapter's mutex `a.mu`; the server's mutex is not taken
  anywhere on the write path.
-/

namespace EscposUsb

/-- Payload byte forwarded opaquely from a client to the printer. -/
abbrev Byte := Nat

/-- State of a TCP listening socket handle.  Go's `Stop` and the failed
device-open path of `Start` call `listener.Close()` but never nil the
`s.listener` field, so a closed handle can remain referenced. -/
structure Listener where
  closed : Bool
deriving DecidableEq

/-- Ghost record of the device-port lifecycle calls the server issues
(`adapter.Open()` / `adapter.Close()`). -/
inductive AdapterCall
  | openDev
  | closeDev
deriving DecidableEq

/-- Device port at the `adapter.Adapter` interface granularity: its liveness
flag (`IsOpen`) and the ghost trace of lifecycle calls made on it. -/
structure Adapter where
  isOpen : Bool
  calls : List AdapterCall
deriving DecidableEq

/-- Errors returned by the lifecycle commands (Go returns `fmt.Errorf`
values; only their identity matters). -/
inductive SrvErr
  | alreadyRunning
  | bindFailed
  | deviceOpenFailed
  | deviceCloseFailed
deriving DecidableEq

/-- The `server.Server` struct fields relevant to lifecycle claims.
`wg` is the residual `sync.WaitGroup` counter once every connection task has
drained: connection tasks pair `wg.Add(1)` (accept loop, line 158) with
`defer s.wg.Done()` (line 165) and so contribute zero, while `StartAsync`'s
`s.wg.Add(1)` (line 131) has no matching `Done` in `acceptConnections` and
remains forever. -/
structure Server where
  address : String
  listener : Option Listener
  running : Bool
  wg : Nat
deriving DecidableEq

/-- Result of `Start` / `StartAsync`: the returned error plus the updated
server and adapter states. -/
structure StartRes where
  err : Option SrvErr
  server : Server
  adapter : Adapter
deriving DecidableEq

/-- Whether a call to `Stop` returns to its caller or blocks forever in
`s.wg.Wait()`. -/
inductive StopOutcome
  | returned (err : Option SrvErr)
  | blocked
deriving DecidableEq

/-- Result of `Stop`: outcome plus the states as of the return point (for
`blocked`, the states as of the eternal wait). -/
structure StopRes where
  outcome : StopOutcome
  server : Server
  adapter : Adapter
deriving DecidableEq

/-- `server.New`: fresh stopped server bound to no socket. -/
def Server.New (address : String) : Server :=
  { address := address, listener := none, running := false, wg := 0 }

/-- `IsRunning` (server.go lines 242-246): snapshot of the running flag. -/
def Server.IsRunning (s : Server) : Bool :=
  s.running

/-- Whether the server currently holds an open (bound, not yet closed)
listening socket. -/
def Server.listenerActive (s : Server) : Bool :=
  match s.listener with
  | none => false
  | some l => !l.closed

/-- Shared body of `Start` and `StartAsync` (server.go lines 45-82 and
92-129, which are textually identical): reject when running, bind, then open
the adapter if it is not open, rolling the listener back on open failure.
`bindOk` is whether `net.Listen` succeeds, `openOk` whether `adapter.Open`
succeeds when called. -/
def startImpl (s : Server) (a : Adapter) (bindOk openOk : Bool) :
    Option SrvErr × Server × Adapter :=
  if s.running then (some .alreadyRunning, s, a)
  else if !bindOk then (some .bindFailed, s, a)
  else
    let s1 : Server := { s with listener := some ⟨false⟩, running := true }
    if !a.isOpen then
      let a1 : Adapter := { a with calls := a.calls ++ [AdapterCall.openDev] }
      if !openOk then
        (some .deviceOpenFailed,
         { s1 with listener := some ⟨true⟩, running := false }, a1)
      else
        (none, s1, { a1 with isOpen := true })
    else
      (none, s1, a)

/-- `Server.Start` (server.go lines 45-89), up to entering the accept loop on
the calling goroutine; the blocking variant performs no `wg.Add`. -/
def Server.Start (s : Server) (a : Adapter) (bindOk openOk : Bool) : StartRes :=
  let r := startImpl s a bindOk openOk
  ⟨r.1, r.2.1, r.2.2⟩

/-- `Server.StartAsync` (server.go lines 91-136): same as `Start` but on
success performs `s.wg.Add(1)` (line 131) before spawning the accept
goroutine — an increment `acceptConnections` (lines 139-161) never pays back
with a `Done`. -/
def Server.StartAsync (s : Server) (a : Adapter) (bindOk openOk : Bool) : StartRes :=
  let r := startImpl s a bindOk openOk
  match r.1 with
  | some e => ⟨some e, r.2.1, r.2.2⟩
  | none => ⟨none, { r.2.1 with wg := r.2.1.wg + 1 }, r.2.2⟩

/-- `Server.Stop` (server.go lines 203-239): no-op when not running;
otherwise clear the running flag, close the listener (the field keeps the
closed handle), then `wg.Wait()` — which returns only if the residual counter
is zero — and finally close the adapter if it reports open.  `closeOk` is
whether `adapter.Close` succeeds when called. -/
def Server.Stop (s : Server) (a : Adapter) (closeOk : Bool) : StopRes :=
  if !s.running then ⟨.returned none, s, a⟩
  else
    let s1 : Server :=
      { s with running := false, listener := s.listener.map fun _ => ⟨true⟩ }
    if s1.wg ≠ 0 then ⟨.blocked, s1, a⟩
    else if a.isOpen then
      let a1 : Adapter :=
        { a with isOpen := false, calls := a.calls ++ [AdapterCall.closeDev] }
      ⟨.returned (if closeOk then none else some .deviceCloseFailed), s1, a1⟩
    else ⟨.returned none, s1, a⟩

/-- States of the server-and-device pair reachable by any sequence of
`Start`, `StartAsync` and `Stop` (with arbitrary environment outcomes),
starting from a fresh server lent an arbitrary device port. -/
inductive Reachable : Server → Adapter → Prop
  | init (addr : String) (a : Adapter) : Reachable (Server.New addr) a
  | start {s a} (bindOk openOk : Bool) : Reachable s a →
      Reachable (Server.Start s a bindOk openOk).server
        (Server.Start s a bindOk openOk).adapter
  | startAsync {s a} (bindOk openOk : Bool) : Reachable s a →
      Reachable (Server.StartAsync s a bindOk openOk).server
        (Server.StartAsync s a bindOk openOk).adapter
  | stop {s a} (closeOk : Bool) : Reachable s a →
      Reachable (Server.Stop s a closeOk).server
        (Server.Stop s a closeOk).adapter

/-- C1: after a successful `StartAsync` on a fresh server, `Stop` never
returns: `StartAsync` performed `wg.Add(1)` for the accept goroutine, but
`acceptConnections` contains no `wg.Done()`, so even with zero client
connections the residual WaitGroup counter is 1 and `s.wg.Wait()` in `Stop`
blocks forever.  The claim (and the repository's own `TestServerStartStop`)
requires `Stop` to return after the drain; the code does not. -/
theorem stop_after_startAsync_never_returns :
    (Server.StartAsync (Server.New ("localhost:9101")) ⟨false, []⟩ true true).err
        = none ∧
    (Server.Stop
        (Server.StartAsync (Server.New ("localhost:9101")) ⟨false, []⟩ true true).server
        (Server.StartAsync (Server.New ("localhost:9101")) ⟨false, []⟩ true true).adapter
        true).outcome = .blocked := by
  decide

/-- C6: calling `Start` or `StartAsync` while the server is already running
fails with `AlreadyRunning` and returns the server and adapter states
entirely unchanged. -/
theorem start_already_running_no_change (s : Server) (a : Adapter)
    (bindOk openOk : Bool) (h : s.running = true) :
    Server.Start s a bindOk openOk = ⟨some .alreadyRunning, s, a⟩ ∧
    Server.StartAsync s a bindOk openOk = ⟨some .alreadyRunning, s, a⟩ := by
  constructor <;> simp [Server.Start, Server.StartAsync, startImpl, h]

/-- Witness for C6 at a concrete running server. -/
theorem start_already_running_no_change_witness :
    Server.Start ⟨("x"), some ⟨false⟩, true, 0⟩ ⟨true, []⟩ true true
        = ⟨some .alreadyRunning, ⟨("x"), some ⟨false⟩, true, 0⟩, ⟨true, []⟩⟩ ∧
    Server.StartAsync ⟨("x"), some ⟨false⟩, true, 0⟩ ⟨true, []⟩ true true
        = ⟨some .alreadyRunning, ⟨("x"), some ⟨false⟩, true, 0⟩, ⟨true, []⟩⟩ :=
  start_already_running_no_change _ _ _ _ rfl

/-- C7: calling `Stop` while the server is not running returns success
(`nil` error) and leaves the server and adapter states entirely unchanged. -/
theorem stop_not_running_noop (s : Server) (a : Adapter) (closeOk : Bool)
    (h : s.running = false) :
    Server.Stop s a closeOk = ⟨.returned none, s, a⟩ := by
  simp [Server.Stop, h]

/-- Witness for C7 at a concrete stopped server. -/
theorem stop_not_running_noop_witness :
    Server.Stop (Server.New ("y")) ⟨true, []⟩ false
        = ⟨.returned none, Server.New ("y"), ⟨true, []⟩⟩ :=
  stop_not_running_noop _ _ _ rfl

/-- C8: when the bind succeeds but the device open fails, `Start` returns
`DeviceOpenFailed`, the just-bound listener is closed again, the server is
back to not-running (`IsRunning` false), the device stays closed, and a
subsequent `Start` with a successful bind and open succeeds; `StartAsync`
fails the same way with the same rollback. -/
theorem start_device_open_failed_rollback (s : Server) (a : Adapter)
    (hr : s.running = false) (ha : a.isOpen = false) :
    (Server.Start s a true false).err = some .deviceOpenFailed ∧
    (Server.Start s a true false).server.IsRunning = false ∧
    (Server.Start s a true false).server.listenerActive = false ∧
    (Server.Start s a true false).adapter.isOpen = false ∧
    (Server.Start (Server.Start s a true false).server
        (Server.Start s a true false).adapter true true).err = none ∧
    (Server.Start (Server.Start s a true false).server
        (Server.Start s a true false).adapter true true).server.IsRunning = true ∧
    (Server.StartAsync s a true false).err = some .deviceOpenFailed ∧
    (Server.StartAsync s a true false).server.IsRunning = false ∧
    (Server.StartAsync s a true false).server.listenerActive = false := by
  simp [Server.Start, Server.StartAsync, startImpl, hr, ha,
    Server.IsRunning, Server.listenerActive]

/-- Witness for C8 at a concrete fresh server and closed device. -/
theorem start_device_open_failed_rollback_witness :
    (Server.Start (Server.New ("z")) ⟨false, []⟩ true false).err
        = some .deviceOpenFailed ∧
    (Server.Start (Server.New ("z")) ⟨false, []⟩ true false).server.IsRunning = false ∧
    (Server.Start (Server.New ("z")) ⟨false, []⟩ true false).server.listenerActive
        = false ∧
    (Server.Start (Server.New ("z")) ⟨false, []⟩ true false).adapter.isOpen = false ∧
    (Server.Start (Server.Start (Server.New ("z")) ⟨false, []⟩ true false).server
        (Server.Start (Server.New ("z")) ⟨false, []⟩ true false).adapter true true).err
        = none ∧
    (Server.Start (Server.Start (Server.New ("z")) ⟨false, []⟩ true false).server
        (Server.Start (Server.New ("z")) ⟨false, []⟩ true false).adapter
        true true).server.IsRunning = true ∧
    (Server.StartAsync (Server.New ("z")) ⟨false, []⟩ true false).err
        = some .deviceOpenFailed ∧
    (Server.StartAsync (Server.New ("z")) ⟨false, []⟩ true false).server.IsRunning
        = false ∧
    (Server.StartAsync (Server.New ("z")) ⟨false, []⟩ true false).server.listenerActive
        = false :=
  start_device_open_failed_rollback _ _ rfl rfl

/-- C4 (amended): in every state reachable by sequences of `Start`,
`StartAsync` and `Stop`, the running flag is true exactly when the server
holds an open listening socket.  Mere field-presence of a handle is not
equivalent: the code keeps the closed handle in `s.listener` (see
`listener_handle_retained_after_close`). -/
theorem running_iff_listener_open (s : Server) (a : Adapter)
    (h : Reachable s a) : s.running = true ↔ s.listenerActive = true := by
  induction h with
  | init addr a => simp [Server.New, Server.listenerActive]
  | start bindOk openOk h ih =>
      rename_i s a
      by_cases hr : s.running
      · simpa [Server.Start, startImpl, hr] using ih
      · cases bindOk with
        | false => simpa [Server.Start, startImpl, hr] using ih
        | true =>
            by_cases ho : a.isOpen <;> cases openOk <;>
              simp [Server.Start, startImpl, hr, ho, Server.listenerActive]
  | startAsync bindOk openOk h ih =>
      rename_i s a
      by_cases hr : s.running
      · simpa [Server.StartAsync, startImpl, hr] using ih
      · cases bindOk with
        | false => simpa [Server.StartAsync, startImpl, hr] using ih
        | true =>
            by_cases ho : a.isOpen <;> cases openOk <;>
              simp [Server.StartAsync, startImpl, hr, ho, Server.listenerActive]
  | stop closeOk h ih =>
      rename_i s a
      by_cases hr : s.running
      · by_cases hw : s.wg = 0 <;> by_cases ho : a.isOpen <;>
          cases hl : s.listener <;>
            simp [Server.Stop, hr, hw, ho, hl, Server.listenerActive]
      · simpa [Server.Stop, hr] using ih

/-- Witness for C4's amended theorem at the initial state. -/
theorem running_iff_listener_open_witness :
    (Server.New ("w")).running = true ↔ (Server.New ("w")).listenerActive = true :=
  running_iff_listener_open _ ⟨false, []⟩ (Reachable.init ("w") ⟨false, []⟩)

/-- C4 counterexample to the claim as stated: after a `Start` whose bind
succeeded and whose device open failed, the (reachable) server state has
`running = false` yet still holds a listening-socket handle in its field —
the rollback closes the socket but never clears `s.listener`, so "running
iff the handle is present" is false there. -/
theorem listener_handle_retained_after_close :
    Reachable (Server.Start (Server.New ("a")) ⟨false, []⟩ true false).server
        (Server.Start (Server.New ("a")) ⟨false, []⟩ true false).adapter ∧
    ¬((Server.Start (Server.New ("a")) ⟨false, []⟩ true false).server.running = true ↔
      (Server.Start (Server.New ("a")) ⟨false, []⟩ true false).server.listener.isSome
        = true) :=
  ⟨Reachable.start true false (Reachable.init ("a") ⟨false, []⟩), by decide⟩

/-! ### Per-connection forwarding task -/

/-- Outcome of one `conn.Read(buf)` call as the forwarding loop observes it:
a successful read of `bytes` (`n = bytes.length`, `err = nil`), end of
stream (`io.EOF`), or any other read error. -/
inductive ReadResult
  | data (bytes : List Byte)
  | eof
  | fail
deriving DecidableEq

/-- Observable behaviour of one forwarding task: the adapter `Write` calls it
issued (each with the exact argument bytes, in call order) and whether the
task returned (closing the connection) rather than staying blocked in a
read. -/
structure ConnRun where
  writes : List (List Byte)
  done : Bool
deriving DecidableEq

/-- `handleConnection` (server.go lines 164-200): read loop over the
connection's read results.  On a read error or EOF the task returns; on a
read of `n > 0` bytes it issues `adapter.Write(buf[:n])` and returns iff the
write reported a non-nil error — the returned count is logged but never
examined.  `wres i` is the `(count, err-non-nil)` result of the `i`-th write
call; `i` numbers the write calls already issued. -/
def handleConnection (wres : Nat → Nat × Bool) :
    List ReadResult → Nat → ConnRun
  | [], _ => ⟨[], false⟩
  | ReadResult.eof :: _, _ => ⟨[], true⟩
  | ReadResult.fail :: _, _ => ⟨[], true⟩
  | ReadResult.data bs :: rest, i =>
      if bs.length = 0 then handleConnection wres rest i
      else if (wres i).2 then ⟨[bs], true⟩
      else
        let r := handleConnection wres rest (i + 1)
        ⟨bs :: r.writes, r.done⟩

/-- The C2 claim as stated, over the forwarding-task semantics: whenever the
`i`-th issued write call returned a count smaller than the bytes it was
given, that call was the last one (the task terminated the connection
there). -/
def shortWriteTreatedAsError (wres : Nat → Nat × Bool)
    (evs : List ReadResult) : Prop :=
  ∀ i bs, (handleConnection wres evs 0).writes.get? i = some bs →
    (wres i).1 < bs.length →
    (handleConnection wres evs 0).writes.length = i + 1 ∧
    (handleConnection wres evs 0).done = true

/-- C2 counterexample: a write of 2 bytes that returns count 1 with a nil
error is not treated as an error — the task goes on to issue the next write
instead of terminating the connection (the code checks only `writeErr`,
never `written < n`). -/
theorem short_write_does_not_terminate_connection :
    ¬ shortWriteTreatedAsError (fun _ => (1, false))
        [ReadResult.data [1, 2], ReadResult.data [3], ReadResult.eof] := by
  intro h
  have h0 := h 0 [1, 2] (by decide) (by decide)
  revert h0
  decide

/-- C2 (amended): the count returned by a device write never influences the
forwarding task's control flow — runs driven by write oracles that agree on
the error component are identical.  The task terminates the connection
exactly on a non-nil write error; a short write without an error is neither
retried nor treated as an error. -/
theorem write_count_never_affects_forwarding (wres wres1 : Nat → Nat × Bool)
    (evs : List ReadResult) (h : ∀ i, (wres i).2 = (wres1 i).2) (i : Nat) :
    handleConnection wres evs i = handleConnection wres1 evs i := by
  induction evs generalizing i with
  | nil => rfl
  | cons ev rest ih =>
      cases ev with
      | eof => rfl
      | fail => rfl
      | data bs =>
          simp only [handleConnection, h i, ih]

/-- Witness for C2's amended theorem: two oracles differing only in counts
produce the same run. -/
theorem write_count_never_affects_forwarding_witness :
    handleConnection (fun _ => (0, false)) [ReadResult.data [9], ReadResult.eof] 0 =
    handleConnection (fun _ => (5, false)) [ReadResult.data [9], ReadResult.eof] 0 :=
  write_count_never_affects_forwarding _ _ _ (fun _ => rfl) 0

/-- C5: a client whose connection delivers the byte sequence B as a sequence
of non-empty successful reads followed by EOF, with every device write
succeeding, causes exactly one write call per read chunk, in order, whose
concatenation is exactly B; the task then terminates normally. -/
theorem connection_bytes_forwarded_exactly (chunks : List (List Byte))
    (wres : Nat → Nat × Bool) (hne : ∀ c ∈ chunks, c ≠ [])
    (hok : ∀ i, (wres i).2 = false) (i : Nat) :
    handleConnection wres (chunks.map ReadResult.data ++ [ReadResult.eof]) i
        = ⟨chunks, true⟩ ∧
    (handleConnection wres (chunks.map ReadResult.data ++ [ReadResult.eof])
        i).writes.flatten = chunks.flatten := by
  have main : ∀ (cs : List (List Byte)), (∀ c ∈ cs, c ≠ []) → ∀ j,
      handleConnection wres (cs.map ReadResult.data ++ [ReadResult.eof]) j
        = ⟨cs, true⟩ := by
    intro cs
    induction cs with
    | nil => intro _ j; rfl
    | cons c cs ih =>
        intro hcs j
        have hc : c ≠ [] := hcs c (by simp)
        have hlen : ¬ c.length = 0 := by simpa using hc
        simp [handleConnection, hlen, hok j,
          ih (fun x hx => hcs x (by simp [hx])) (j + 1)]
  refine ⟨main chunks hne i, ?_⟩
  rw [main chunks hne i]

/-- Witness for C5 on the concrete two-chunk stream [72, 105] ++ [33]. -/
theorem connection_bytes_forwarded_exactly_witness :
    handleConnection (fun _ => (2, false))
        ([[72, 105], [33]].map ReadResult.data ++ [ReadResult.eof]) 0
        = ⟨[[72, 105], [33]], true⟩ ∧
    (handleConnection (fun _ => (2, false))
        ([[72, 105], [33]].map ReadResult.data ++ [ReadResult.eof]) 0).writes.flatten
        = [[72, 105], [33]].flatten :=
  connection_bytes_forwarded_exactly _ _ (by decide) (fun _ => rfl) 0

/-- C9: in any single execution of `Start` or `StartAsync` the device open
is called at most once and only when `IsOpen` reported false, and in any
single execution of `Stop` the device close is called at most once and only
when `IsOpen` reported true — read off the ghost call trace, whose delta is
empty or exactly one call. -/
theorem open_close_discipline (s : Server) (a : Adapter)
    (bindOk openOk closeOk : Bool) :
    ((Server.Start s a bindOk openOk).adapter.calls = a.calls ∨
     (Server.Start s a bindOk openOk).adapter.calls
        = a.calls ++ [AdapterCall.openDev]) ∧
    ((Server.Start s a bindOk openOk).adapter.calls
        = a.calls ++ [AdapterCall.openDev] → a.isOpen = false) ∧
    ((Server.StartAsync s a bindOk openOk).adapter.calls = a.calls ∨
     (Server.StartAsync s a bindOk openOk).adapter.calls
        = a.calls ++ [AdapterCall.openDev]) ∧
    ((Server.StartAsync s a bindOk openOk).adapter.calls
        = a.calls ++ [AdapterCall.openDev] → a.isOpen = false) ∧
    ((Server.Stop s a closeOk).adapter.calls = a.calls ∨
     (Server.Stop s a closeOk).adapter.calls
        = a.calls ++ [AdapterCall.closeDev]) ∧
    ((Server.Stop s a closeOk).adapter.calls
        = a.calls ++ [AdapterCall.closeDev] → a.isOpen = true) := by
  by_cases hr : s.running <;> by_cases hb : bindOk = true <;>
    by_cases ho : a.isOpen = true <;> by_cases hk : openOk = true <;>
      by_cases hw : s.wg = 0 <;>
        simp [Server.Start, Server.StartAsync, Server.Stop, startImpl,
          hr, hb, ho, hk, hw]

/-! ### Write-path serialization (USBAdapter.Write under the adapter mutex) -/

/-- One forwarding task as the write path sees it: the write calls still to
perform (when the task holds the adapter lock, the head is the unwritten
remainder of the call in progress) and the index of the call in progress. -/
structure TaskSt where
  rem : List (List Byte)
  idx : Nat

/-- Shared state of the device write path: the adapter's mutex `a.mu` (whom
`USBAdapter.Write` holds for the whole call), the server's mutex `s.mu`
(which the forwarding tasks never touch — `handleConnection` calls
`s.adapter.Write` directly), and the stream of bytes reaching the device,
ghost-tagged with the emitting task and its write-call index. -/
structure WriteSys where
  devLock : Option Nat
  srvLock : Option Nat
  log : List (Nat × Nat × Byte)
  tasks : Nat → TaskSt

/-- One scheduler step of task `t` on the write path, from
`USBAdapter.Write` (usb.go lines 291-311): a task first acquires the adapter
mutex (blocking while another task holds it), then transfers its call's
bytes to the device one at a time, and releases the mutex only when the call
is complete.  The server mutex is not acquired anywhere on this path. -/
def wstep (s : WriteSys) (t : Nat) : WriteSys :=
  if s.devLock = some t then
    match (s.tasks t).rem with
    | [] => { s with devLock := none }
    | [] :: rest =>
        { s with devLock := none,
                 tasks := fun u =>
                   if u = t then ⟨rest, (s.tasks t).idx + 1⟩ else s.tasks u }
    | (b :: bs) :: rest =>
        { s with log := s.log ++ [(t, (s.tasks t).idx, b)],
                 tasks := fun u =>
                   if u = t then ⟨bs :: rest, (s.tasks t).idx⟩ else s.tasks u }
  else if s.devLock = none ∧ (s.tasks t).rem ≠ [] then
    { s with devLock := some t }
  else s

/-- Run the write path under an arbitrary schedule of task steps. -/
def wrun (s : WriteSys) : List Nat → WriteSys
  | [] => s
  | t :: sched => wrun (wstep s t) sched

/-- Initial write-path state for a list of per-connection write programs:
both locks free, nothing written. -/
def WriteSys.init (progs : List (List (List Byte))) : WriteSys :=
  { devLock := none, srvLock := none, log := [],
    tasks := fun t => ⟨progs.getD t [], 0⟩ }

/-- Ghost tag (task, write-call index) of each byte in the device stream. -/
def tags (log : List (Nat × Nat × Byte)) : List (Nat × Nat) :=
  log.map fun e => (e.1, e.2.1)

/-- Collapse adjacent equal elements to one representative; a list whose
collapse is duplicate-free consists of contiguous runs of equal elements. -/
def collapse {α : Type _} [DecidableEq α] : List α → List α
  | [] => []
  | [a] => [a]
  | a :: b :: l => if a = b then collapse (b :: l) else a :: collapse (b :: l)

theorem collapse_subset {α : Type _} [DecidableEq α] :
    ∀ (l : List α), collapse l ⊆ l
  | [] => by simp [collapse]
  | [a] => by simp [collapse]
  | a :: b :: l => by
      by_cases h : a = b
      · simp only [collapse, if_pos h]
        intro x hx
        exact List.mem_cons_of_mem a (collapse_subset (b :: l) hx)
      · simp only [collapse, if_neg h]
        intro x hx
        rcases List.mem_cons.mp hx with rfl | hx
        · exact List.mem_cons_self _ _
        · exact List.mem_cons_of_mem a (collapse_subset (b :: l) hx)

theorem collapse_concat {α : Type _} [DecidableEq α] :
    ∀ (l : List α) (τ : α),
      collapse (l ++ [τ])
        = if l.getLast? = some τ then collapse l else collapse l ++ [τ]
  | [], τ => by simp [collapse]
  | [a], τ => by
      by_cases h : a = τ <;> simp [collapse, h]
  | a :: b :: l, τ => by
      have ih := collapse_concat (b :: l) τ
      by_cases h : a = b <;> by_cases h2 : (b :: l).getLast? = some τ <;>
        simp only [List.cons_append, List.getLast?_cons_cons, h2, if_true,
          if_false] at ih ⊢ <;>
        simp [collapse, h, ih]

theorem collapse_concat_nodup {α : Type _} [DecidableEq α] {l : List α} {τ : α}
    (h : (collapse l).Nodup) (hτ : l.getLast? = some τ ∨ τ ∉ l) :
    (collapse (l ++ [τ])).Nodup := by
  rw [collapse_concat]
  by_cases hlast : l.getLast? = some τ
  · simpa [hlast] using h
  · rcases hτ with hτ | hτ
    · exact absurd hτ hlast
    · have hnc : τ ∉ collapse l := fun hc => hτ (collapse_subset l hc)
      simp only [hlast, if_false]
      rw [List.nodup_append]
      refine ⟨h, List.nodup_singleton τ, ?_⟩
      intro x hx hx2
      rw [List.mem_singleton] at hx2
      subst hx2
      exact hnc hx

/-- Invariant of the write path: the tag stream is made of contiguous runs
(no write call's bytes are interleaved with another call's), tags never run
ahead of their task's current call, a task's current call can have reached
the device only if that task holds the adapter mutex and wrote last, and the
mutex holder always has a call in progress. -/
structure WInv (s : WriteSys) : Prop where
  contig : (collapse (tags s.log)).Nodup
  bound : ∀ p ∈ tags s.log, p.2 ≤ (s.tasks p.1).idx
  cur : ∀ t, (t, (s.tasks t).idx) ∈ tags s.log →
      s.devLock = some t ∧ (tags s.log).getLast? = some (t, (s.tasks t).idx)
  lockRem : ∀ t, s.devLock = some t → (s.tasks t).rem ≠ []

theorem winv_init (progs : List (List (List Byte))) :
    WInv (WriteSys.init progs) := by
  refine ⟨by simp [WriteSys.init, tags, collapse], ?_, ?_, ?_⟩ <;>
    simp [WriteSys.init, tags]

theorem winv_step {s : WriteSys} (h : WInv s) (t : Nat) : WInv (wstep s t) := by
  by_cases hl : s.devLock = some t
  · rcases hrem : (s.tasks t).rem with _ | ⟨c, rest⟩
    · exact absurd hrem (h.lockRem t hl)
    · rcases c with _ | ⟨b, bs⟩
      · -- release: current call complete, free the mutex, next call index
        have hs : wstep s t
            = { s with devLock := none,
                       tasks := fun u =>
                         if u = t then ⟨rest, (s.tasks t).idx + 1⟩
                         else s.tasks u } := by
          simp [wstep, hl, hrem]
        rw [hs]
        refine ⟨h.contig, ?_, ?_, by simp⟩
        · intro p hp
          have hb := h.bound p hp
          by_cases hpt : p.1 = t
          · rw [hpt] at hb
            simp [hpt]
            omega
          · simpa [hpt] using hb
        · intro u hu
          by_cases hut : u = t
          · subst hut
            simp only [if_pos rfl, eq_self_iff_true, if_true] at hu
            exfalso
            have hb := h.bound _ hu
            simp only [Prod.fst, Prod.snd] at hb
            omega
          · simp only [if_neg hut] at hu ⊢
            rcases h.cur u hu with ⟨hd, _⟩
            have : t = u := Option.some_injective _ (hl.symm.trans hd)
            exact absurd this.symm hut
      · -- emit: one byte of the call in progress reaches the device
        have hs : wstep s t
            = { s with log := s.log ++ [(t, (s.tasks t).idx, b)],
                       tasks := fun u =>
                         if u = t then ⟨bs :: rest, (s.tasks t).idx⟩
                         else s.tasks u } := by
          simp [wstep, hl, hrem]
        rw [hs]
        have htags : tags (s.log ++ [(t, (s.tasks t).idx, b)])
            = tags s.log ++ [(t, (s.tasks t).idx)] := by
          simp [tags]
        refine ⟨?_, ?_, ?_, ?_⟩
        · simp only [htags]
          refine collapse_concat_nodup h.contig ?_
          by_cases hmem : (t, (s.tasks t).idx) ∈ tags s.log
          · exact Or.inl (h.cur t hmem).2
          · exact Or.inr hmem
        · intro p hp
          rw [htags] at hp
          rcases List.mem_append.mp hp with hp | hp
          · have hb := h.bound p hp
            by_cases hpt : p.1 = t
            · rw [hpt] at hb
              simp [hpt]
              omega
            · simpa [hpt] using hb
          · simp only [List.mem_singleton] at hp
            simp [hp]
        · intro u hu
          by_cases hut : u = t
          · subst hut
            refine ⟨hl, ?_⟩
            simp [htags]
          · simp only [if_neg hut] at hu ⊢
            rw [htags] at hu
            rcases List.mem_append.mp hu with hu | hu
            · rcases h.cur u hu with ⟨hd, _⟩
              have : t = u := Option.some_injective _ (hl.symm.trans hd)
              exact absurd this.symm hut
            · simp only [List.mem_singleton, Prod.mk.injEq] at hu
              exact absurd hu.1 hut
        · intro u hu
          simp only at hu
          have hut : t = u := Option.some_injective _ (hl.symm.trans hu)
          subst hut
          simp
  · by_cases h2 : s.devLock = none ∧ (s.tasks t).rem ≠ []
    · have hs : wstep s t = { s with devLock := some t } := by
        simp only [wstep, if_neg hl, if_pos h2]
      rw [hs]
      refine ⟨h.contig, h.bound, ?_, ?_⟩
      · intro u hu
        rcases h.cur u hu with ⟨hd, _⟩
        rw [h2.1] at hd
        exact absurd hd (by simp)
      · intro u hu
        simp only at hu
        have : t = u := Option.some_injective _ hu
        subst this
        exact h2.2
    · have hs : wstep s t = s := by
        simp only [wstep, if_neg hl, if_neg h2]
      rw [hs]
      exact h

theorem winv_wrun {s : WriteSys} (h : WInv s) :
    ∀ sched : List Nat, WInv (wrun s sched)
  | [] => h
  | t :: sched => winv_wrun (winv_step h t) sched

/-- C3 (amended): for every set of per-connection write programs and every
scheduler interleaving, the device byte stream consists of contiguous runs
per (task, write-call) — the adapter-mutex discipline of `USBAdapter.Write`
ensures no two write invocations are ever interleaved byte-by-byte, and each
write invocation carries bytes of a single connection. -/
theorem write_calls_never_interleaved (progs : List (List (List Byte)))
    (sched : List Nat) :
    (collapse (tags (wrun (WriteSys.init progs) sched).log)).Nodup :=
  (winv_wrun (winv_init progs) sched).contig

/-- The C3 claim as stated, modelled from the spec's words: every step that
makes bytes reach the device is performed while the emitting task holds the
mutual-exclusion point owned by the Server (the server's mutex). -/
def srvLockGuardsEmits : WriteSys → List Nat → Bool
  | _, [] => true
  | s, t :: sched =>
      (decide ((wstep s t).log.length = s.log.length)
        || decide (s.srvLock = some t))
      && srvLockGuardsEmits (wstep s t) sched

/-- C3 counterexample to the claim as stated: a single connection task
writing one byte reaches the device while the server's mutex is held by no
one — the write path takes only the adapter's own mutex (`USBAdapter.mu`),
never a mutual-exclusion point owned by the Server. -/
theorem write_unguarded_by_server_lock :
    srvLockGuardsEmits (WriteSys.init [[[7]]]) [0, 0] = false ∧
    (wrun (WriteSys.init [[[7]]]) [0, 0]).log = [(0, 0, 7)] := by
  decide

/-! ### USB adapter close -/

/-- The `adapter.USBAdapter` struct fields touched by `Close` (usb.go):
resource handles are abstracted to optional tokens. -/
structure USBAdapter where
  device : Option Nat
  ctx : Option Nat
  outEndpoint : Option Nat
  inEndpoint : Option Nat
  iface : Option Nat
  isOpen : Bool
deriving DecidableEq

/-- Error value aggregated from the underlying close failures
(`fmt.Errorf("close errors: %v", errs)`). -/
inductive CloseErr
  | closeErrors
deriving DecidableEq

/-- `USBAdapter.Close` (usb.go lines 335-370): returns nil immediately when
not open; otherwise closes and nils the interface, closes the device and the
context (collecting their errors, given here as `deviceCloseOk` /
`ctxCloseOk`), clears `isOpen`, and reports an aggregate error iff any close
failed. -/
def USBAdapter.Close (a : USBAdapter) (deviceCloseOk ctxCloseOk : Bool) :
    USBAdapter × Option CloseErr :=
  if !a.isOpen then (a, none)
  else
    let devErr : Bool := a.device.isSome && !deviceCloseOk
    let ctxErr : Bool := a.ctx.isSome && !ctxCloseOk
    ({ a with iface := none, isOpen := false },
     if devErr || ctxErr then some .closeErrors else none)

/-- C10: closing a USB adapter that is not open returns success and leaves
every field of the adapter unchanged, whatever the underlying close calls
would have reported. -/
theorem usb_close_not_open_noop (a : USBAdapter) (deviceCloseOk ctxCloseOk : Bool)
    (h : a.isOpen = false) :
    USBAdapter.Close a deviceCloseOk ctxCloseOk = (a, none) := by
  simp [USBAdapter.Close, h]

/-- Witness for C10 at a concrete closed adapter that still holds handles. -/
theorem usb_close_not_open_noop_witness :
    USBAdapter.Close ⟨some 1, some 2, some 3, none, some 4, false⟩ false false
        = (⟨some 1, some 2, some 3, none, some 4, false⟩, none) :=
  usb_close_not_open_noop _ _ _ rfl

end EscposUsb
